import Mathlib

/- Shallow embedding of the Streamfox.Server backend core: the video upload
pipeline (`UploadVideo` in src/backend/controllers/video.go) and the
watch-integrity engine (`calculateWatchConditions` and `watchFor` in
src/backend/models/watch.go).

Conventions of the embedding:
- Go machine integers (int32, int64) are modelled as ℤ; snowflake ids as ℕ.
- Go float64 arithmetic in calculateWatchConditions acts on integral values
  (byte counts, millisecond counts) scaled by the constant 0.6; it is
  modelled as exact integer arithmetic, with math.Ceil(x * 0.6) for integral
  x rendered as the exact ceiling of 6x/10.
- time.Time and time.Duration are ℤ nanosecond counts; the current instant
  (time.Now / time.Since) is passed as an explicit parameter named now.
- The gorm watch-row store (one row per user) is modelled as Option Watch
  and threaded explicitly; database I/O errors are outside the model.
- The filesystem and HTTP side effects of UploadVideo are modelled by an
  environment record fixing the outcome of each external step, and an
  outcome record collecting the response, the record persisted by the
  deferred Save, whether the media file is stored at exit, and the sequence
  of status values the video record takes during the call. -/

/-- Visibility enum from the models package (PRIVATE, UNLISTED, PUBLIC). -/
inductive Visibility where
  | PRIVATE
  | UNLISTED
  | PUBLIC
deriving DecidableEq, Repr

/-- Modelled from the spec: the video status enum is declared in
models/video.go, which is not among the provided source files; only its
uses in controllers/video.go are visible. The spec fixes the values and
their order: EMPTY < UPLOADING < PROCESSING < COMPLETE. -/
inductive Status where
  | EMPTY
  | UPLOADING
  | PROCESSING
  | COMPLETE
deriving DecidableEq, Repr

/-- Numeric rank giving the order the controller compares statuses with. -/
def Status.rank : Status → ℕ
  | Status.EMPTY => 0
  | Status.UPLOADING => 1
  | Status.PROCESSING => 2
  | Status.COMPLETE => 3

instance : LT Status := ⟨fun a b => a.rank < b.rank⟩

instance : LE Status := ⟨fun a b => a.rank ≤ b.rank⟩

instance (a b : Status) : Decidable (a < b) :=
  inferInstanceAs (Decidable (a.rank < b.rank))

instance (a b : Status) : Decidable (a ≤ b) :=
  inferInstanceAs (Decidable (a.rank ≤ b.rank))

/-- The Video record (models package): identity, creator, user-editable
fields, and the ingestion fields owned by the upload pipeline. -/
structure Video where
  id : ℕ
  creator : ℕ
  name : String
  description : String
  visibility : Visibility
  status : Status
  mimeType : String
  durationSecs : ℤ
  sizeBytes : ℤ
deriving DecidableEq, Repr

/-- The Watch record from models/watch.go: one row per user (primary key
UserId), tracking the target video, the per-session ViewId token, the
session start instant and the cumulative bytes streamed. -/
structure Watch where
  userId : ℕ
  videoId : ℕ
  viewId : ℕ
  startedAt : ℤ
  bytesStreamed : ℤ
deriving DecidableEq, Repr

/-- Result of calculateWatchConditions: RemainingBytes (uint64 in Go,
always the value of a non-negative integral float, kept as ℤ) and
RemainingTime (time.Duration, ℤ nanoseconds). -/
structure WatchConditions where
  remainingBytes : ℤ
  remainingTime : ℤ
deriving DecidableEq, Repr

/-- Exact ceiling of the integer fraction a / b (for b > 0), used to model
math.Ceil on exactly-represented quotients. Int division here is Euclidean,
so for b > 0 the inner division floors and the negation turns it into a
ceiling. -/
def ceilDiv (a b : ℤ) : ℤ := -(-a / b)

/-- The WatchPercentageRequired constant 0.6 from models/watch.go, as the
exact fraction numerator/denominator = 6/10. -/
def WatchPercentageRequiredNum : ℤ := 6

def WatchPercentageRequiredDen : ℤ := 10

/-- One millisecond as a time.Duration (nanoseconds), Go's time.Millisecond. -/
def millisecond : ℤ := 1000000

/-- Go's Duration.Milliseconds(): nanoseconds divided by 10^6, truncated
toward zero (Go integer division), hence Int.tdiv. -/
def durationMilliseconds (d : ℤ) : ℤ := Int.tdiv d millisecond

/-- calculateWatchConditions from models/watch.go.
minimumBytes = Ceil(SizeBytes * 0.6); minimumWatchTimeMs =
Ceil(DurationSecs * 1000 * 0.6); alreadyWatchedMs =
time.Since(StartedAt).Milliseconds(); the results clamp at 0 with math.Max
and RemainingTime is scaled back to a Duration by time.Millisecond. -/
def calculateWatchConditions (now : ℤ) (watch : Watch) (video : Video) :
    WatchConditions :=
  let minimumBytes :=
    ceilDiv (video.sizeBytes * WatchPercentageRequiredNum) WatchPercentageRequiredDen
  let alreadyStreamedBytes := watch.bytesStreamed
  let minimumWatchTimeMs :=
    ceilDiv (video.durationSecs * 1000 * WatchPercentageRequiredNum)
      WatchPercentageRequiredDen
  let alreadyWatchedMs := durationMilliseconds (now - watch.startedAt)
  { remainingBytes := max 0 (minimumBytes - alreadyStreamedBytes)
    remainingTime := max 0 (minimumWatchTimeMs - alreadyWatchedMs) * millisecond }

/-- watchFor from models/watch.go. FirstOrCreate keyed by the user id:
if the user has no row, a row is created from the Attrs (target video, a
fresh ViewId, StartedAt = now, BytesStreamed = 0) and persisted; otherwise
the existing row is fetched and the Attrs are ignored. If the fetched row
targets a different video it is reset in place (new ViewId, StartedAt = now,
BytesStreamed = 0) and saved. The id generator NewId() is modelled by the
explicit parameter newId; database errors are outside the model. Returns
the resulting watch together with the store after the call. -/
def watchFor (now : ℤ) (newId : ℕ) (userId : ℕ) (video : Video)
    (db : Option Watch) : Watch × Option Watch :=
  let watch :=
    match db with
    | some w => w
    | none =>
      { userId := userId
        videoId := video.id
        viewId := newId
        startedAt := now
        bytesStreamed := 0 }
  if watch.videoId ≠ video.id then
    let reset :=
      { watch with
          videoId := video.id
          viewId := newId
          startedAt := now
          bytesStreamed := 0 }
    (reset, some reset)
  else
    (watch, some watch)

/-- The result codes of TryAddView as consumed by StillWatching in
controllers/video.go, with the payloads (TimeLeftMs, BytesLeft) the
controller reads from the result. -/
inductive AddViewResult where
  | ADD_VIEW_SUCCESS
  | ADD_VIEW_DUPLICATE
  | ADD_VIEW_TIME_NOT_PASSED (timeLeftMs : ℤ)
  | ADD_VIEW_VIDEO_NOT_STREAMED_ENOUGH (bytesLeft : ℤ)
deriving DecidableEq, Repr

/-- Modelled from the spec: Video.TryAddView lives in models/video.go,
which is not among the provided source files; only its caller StillWatching
and its result codes are visible. The spec specifies tryRegisterView:
1. an existing ViewLedger entry for the session's ViewId yields Duplicate
with no state change; 2. otherwise, with conditions from remaining
(calculateWatchConditions), remainingTime > 0 yields TimeNotPassed;
3. else remainingBytes > 0 yields NotStreamedEnough; 4. else the ledger
entry keyed by (video, ViewId) is inserted and the result is Success.
The ViewLedger is modelled as the list of its (videoId, viewId) keys. -/
def tryAddView (now : ℤ) (watch : Watch) (video : Video)
    (ledger : List (ℕ × ℕ)) : AddViewResult × List (ℕ × ℕ) :=
  if (video.id, watch.viewId) ∈ ledger then
    (AddViewResult.ADD_VIEW_DUPLICATE, ledger)
  else
    let conditions := calculateWatchConditions now watch video
    if 0 < conditions.remainingTime then
      (AddViewResult.ADD_VIEW_TIME_NOT_PASSED
          (durationMilliseconds conditions.remainingTime),
        ledger)
    else if 0 < conditions.remainingBytes then
      (AddViewResult.ADD_VIEW_VIDEO_NOT_STREAMED_ENOUGH conditions.remainingBytes,
        ledger)
    else
      (AddViewResult.ADD_VIEW_SUCCESS, (video.id, watch.viewId) :: ledger)

/-- A sequence of still-watching polls for one session: the polls are made
at the listed instants, the ledger threads through. Returns the list of
results and the final ledger. -/
def stillWatchingSeq (watch : Watch) (video : Video) :
    List ℤ → List (ℕ × ℕ) → List AddViewResult × List (ℕ × ℕ)
  | [], ledger => ([], ledger)
  | now :: laterPolls, ledger =>
    let step := tryAddView now watch video ledger
    let rest := stillWatchingSeq watch video laterPolls step.2
    (step.1 :: rest.1, rest.2)

/-- Errors codec.Probe can report: ErrInvalidVideoType, or any other
probe failure. -/
inductive ProbeError where
  | invalidVideoType
  | other
deriving DecidableEq, Repr

/-- Successful probe data recorded on the video. -/
structure ProbeInfo where
  mimeType : String
  durationSecs : ℤ
deriving DecidableEq, Repr

instance {ε α : Type} [DecidableEq ε] [DecidableEq α] : DecidableEq (Except ε α) := fun a b =>
  match a, b with
  | Except.error x, Except.error y =>
    if h : x = y then Decidable.isTrue (by rw [h]) else Decidable.isFalse (by simp [h])
  | Except.error _, Except.ok _ => Decidable.isFalse (by simp)
  | Except.ok _, Except.error _ => Decidable.isFalse (by simp)
  | Except.ok x, Except.ok y =>
    if h : x = y then Decidable.isTrue (by rw [h]) else Decidable.isFalse (by simp [h])

/-- Outcomes of the external steps UploadVideo performs, fixed up front:
os.MkdirAll, os.Create, io.Copy of the request body, file.Close,
codec.Probe, os.Stat (the stored size on success), and
codec.GenerateThumbnail. -/
structure UploadEnv where
  mkdirOk : Bool
  createOk : Bool
  copyOk : Bool
  closeOk : Bool
  probe : Except ProbeError ProbeInfo
  statSize : Option ℤ
  thumbnailOk : Bool
deriving DecidableEq, Repr

/-- The error responses UploadVideo can produce, named after the error
values in controllers/video.go. -/
inductive UploadError where
  | cannotOverwrite
  | genericFileIo
  | invalidFormat
  | probeFailed
  | getSize
  | generateThumbnail
deriving DecidableEq, Repr

/-- How a probe error is reported: ErrInvalidVideoType becomes the user
error errVideoInvalidFormat, anything else the server error errVideoProbe. -/
def probeErrorResponse : ProbeError → UploadError
  | ProbeError.invalidVideoType => UploadError.invalidFormat
  | ProbeError.other => UploadError.probeFailed

/-- What one UploadVideo call did: the HTTP response (ok or an error), the
video record persisted by the deferred Save (none when the call returned
before registering it), whether the media file written by this call is
stored at exit, and the sequence of values the video's Status field took
during the call, starting with its value at entry. -/
structure UploadOutcome where
  response : Except UploadError Unit
  persisted : Option Video
  fileStored : Bool
  statusTrace : List Status
deriving DecidableEq, Repr

/-- UploadVideo from controllers/video.go. The guard rejects when
Status > UPLOADING before any mutation; past it, Status is set to UPLOADING
and defer video.Save() persists the record's final field values on every
later exit path. Copy and Close failures remove the partial file; a probe
failure removes the file and reports invalid format or a probe server
error; on probe success the size is taken from os.Stat (a Stat failure
returns without removing the file), the probe metadata is recorded and
Status advances to PROCESSING; a thumbnail failure returns with the file
and record kept; on success Status advances to COMPLETE. -/
def UploadVideo (env : UploadEnv) (video : Video) : UploadOutcome :=
  if Status.UPLOADING < video.status then
    { response := Except.error UploadError.cannotOverwrite
      persisted := none
      fileStored := false
      statusTrace := [video.status] }
  else
    let uploading := { video with status := Status.UPLOADING }
    if !env.mkdirOk then
      { response := Except.error UploadError.genericFileIo
        persisted := some uploading
        fileStored := false
        statusTrace := [video.status, Status.UPLOADING] }
    else if !env.createOk then
      { response := Except.error UploadError.genericFileIo
        persisted := some uploading
        fileStored := false
        statusTrace := [video.status, Status.UPLOADING] }
    else if !env.copyOk then
      { response := Except.error UploadError.genericFileIo
        persisted := some uploading
        fileStored := false
        statusTrace := [video.status, Status.UPLOADING] }
    else if !env.closeOk then
      { response := Except.error UploadError.genericFileIo
        persisted := some uploading
        fileStored := false
        statusTrace := [video.status, Status.UPLOADING] }
    else
      match env.probe with
      | Except.error probeErr =>
        { response := Except.error (probeErrorResponse probeErr)
          persisted := some uploading
          fileStored := false
          statusTrace := [video.status, Status.UPLOADING] }
      | Except.ok probe =>
        match env.statSize with
        | none =>
          { response := Except.error UploadError.getSize
            persisted := some uploading
            fileStored := true
            statusTrace := [video.status, Status.UPLOADING] }
        | some size =>
          let processing :=
            { uploading with
                mimeType := probe.mimeType
                durationSecs := probe.durationSecs
                sizeBytes := size
                status := Status.PROCESSING }
          if !env.thumbnailOk then
            { response := Except.error UploadError.generateThumbnail
              persisted := some processing
              fileStored := true
              statusTrace := [video.status, Status.UPLOADING, Status.PROCESSING] }
          else
            let complete := { processing with status := Status.COMPLETE }
            { response := Except.ok ()
              persisted := some complete
              fileStored := true
              statusTrace :=
                [video.status, Status.UPLOADING, Status.PROCESSING,
                  Status.COMPLETE] }

/-- The spec's formula for remaining(session, video), written from the
spec's words with the exact rational ceiling: minBytes = ceil(size * 0.6),
remainingBytes = max(0, minBytes - bytesStreamed); minTimeMs =
ceil(durationSecs * 1000 * 0.6), remainingTime = max(0, minTimeMs -
elapsedMs). Returns (remainingBytes, remainingTimeMs). Kept separate from
calculateWatchConditions so the two can be compared. -/
def remainingSpec (size durationSecs bytesStreamed elapsedMs : ℤ) : ℤ × ℤ :=
  (max 0 (⌈(size : ℚ) * (6 / 10)⌉ - bytesStreamed),
    max 0 (⌈(durationSecs : ℚ) * 1000 * (6 / 10)⌉ - elapsedMs))

/-- Fixture: the spec's worked example video, 1000 bytes, 100 seconds. -/
def exampleVideo : Video :=
  { id := 1
    creator := 9
    name := "example"
    description := ""
    visibility := Visibility.PUBLIC
    status := Status.COMPLETE
    mimeType := "video/mp4"
    durationSecs := 100
    sizeBytes := 1000 }

/-- Fixture: a session on exampleVideo started at instant 0 with the given
streamed byte count. -/
def exampleWatch (bytes : ℤ) : Watch :=
  { userId := 7
    videoId := 1
    viewId := 42
    startedAt := 0
    bytesStreamed := bytes }

/-- Fixture: an upload environment where every external step succeeds. -/
def allOkEnv : UploadEnv :=
  { mkdirOk := true
    createOk := true
    copyOk := true
    closeOk := true
    probe := Except.ok { mimeType := "video/mp4", durationSecs := 100 }
    statSize := some 1000
    thumbnailOk := true }

/-- Fixture: an upload environment whose io.Copy step fails. -/
def copyFailEnv : UploadEnv :=
  { allOkEnv with copyOk := false }

/-- Fixture: an upload environment whose thumbnail step fails. -/
def thumbFailEnv : UploadEnv :=
  { allOkEnv with thumbnailOk := false }

/-- Fixture: a fresh placeholder video as created by CreateVideo. -/
def emptyVideo : Video :=
  { exampleVideo with
      status := Status.EMPTY
      mimeType := ""
      durationSecs := 0
      sizeBytes := 0 }

/-- Fixture: a video stuck at PROCESSING (thumbnail-stage failure). -/
def processingVideo : Video :=
  { exampleVideo with status := Status.PROCESSING }

/-- None of the external steps of an upload fails: directory creation,
file creation, the body copy, the close, the probe (with some result),
the size stat (with some size) and thumbnail generation all succeed. -/
def UploadEnv.noFailure (env : UploadEnv) : Prop :=
  env.mkdirOk = true ∧ env.createOk = true ∧ env.copyOk = true ∧
  env.closeOk = true ∧ (∃ p, env.probe = Except.ok p) ∧
  (∃ sz, env.statSize = some sz) ∧ env.thumbnailOk = true

/- Helper lemmas. -/

theorem Status.not_lt_of_le {a b : Status} (h : a ≤ b) : ¬ b < a :=
  Nat.not_lt.mpr h

theorem Status.le_of_not_lt {a b : Status} (h : ¬ a < b) : b ≤ a :=
  Nat.le_of_not_lt h

theorem ceilDiv_eq_ceil (a : ℤ) (d : ℕ) : ceilDiv a d = ⌈(a : ℚ) / d⌉ := by
  unfold ceilDiv
  rw [show ((a : ℚ) / d) = -((-a : ℤ) : ℚ) / d by push_cast; ring]
  rw [neg_div, Int.ceil_neg, Rat.floor_intCast_div_natCast]

theorem ceilDiv_six_tenths (m : ℤ) :
    ceilDiv (m * WatchPercentageRequiredNum) WatchPercentageRequiredDen
      = ⌈(m : ℚ) * (6 / 10)⌉ := by
  rw [show WatchPercentageRequiredDen = ((10 : ℕ) : ℤ) from rfl, ceilDiv_eq_ceil]
  congr 1
  rw [WatchPercentageRequiredNum]
  push_cast
  ring

/-- C8: the remaining byte count and remaining time computed by
calculateWatchConditions are never negative, for every combination of video
size, video duration, streamed byte count and elapsed time. -/
theorem calculateWatchConditions_nonneg (now : ℤ) (watch : Watch)
    (video : Video) :
    0 ≤ (calculateWatchConditions now watch video).remainingBytes ∧
    0 ≤ (calculateWatchConditions now watch video).remainingTime := by
  refine ⟨?_, ?_⟩ <;> simp only [calculateWatchConditions]
  · exact le_max_left 0 _
  · exact mul_nonneg (le_max_left 0 _) (by norm_num [millisecond])

/-- C2: for every video and session, calculateWatchConditions returns
exactly the spec's remaining formula: remainingBytes =
max(0, ceil(size * 0.6) - bytesStreamed) and remainingTime (converted back
from a Duration) = max(0, ceil(durationSecs * 1000 * 0.6) - elapsedMs)
milliseconds, where the elapsed time is e milliseconds. -/
theorem calculateWatchConditions_matches_remainingSpec (video : Video)
    (watch : Watch) (now e : ℤ) (h : now - watch.startedAt = e * millisecond) :
    (calculateWatchConditions now watch video).remainingBytes
        = (remainingSpec video.sizeBytes video.durationSecs
            watch.bytesStreamed e).1 ∧
    (calculateWatchConditions now watch video).remainingTime
        = (remainingSpec video.sizeBytes video.durationSecs
            watch.bytesStreamed e).2 * millisecond := by
  have hb := ceilDiv_six_tenths video.sizeBytes
  have ht : ceilDiv (video.durationSecs * 1000 * WatchPercentageRequiredNum)
      WatchPercentageRequiredDen = ⌈(video.durationSecs : ℚ) * 1000 * (6 / 10)⌉ := by
    rw [ceilDiv_six_tenths (video.durationSecs * 1000)]
    congr 1
    push_cast
    ring
  simp only [calculateWatchConditions, remainingSpec, durationMilliseconds]
  rw [h, Int.mul_tdiv_cancel e (by norm_num [millisecond]), hb, ht]
  exact ⟨rfl, rfl⟩

/-- C2 witness: the spec's worked example, size 1000 bytes and duration
100 s with 700 bytes streamed and 61000 ms elapsed, yields remainingBytes =
0 and remainingTime = 0, and agrees with the spec formula. -/
theorem calculateWatchConditions_matches_remainingSpec_witness :
    (calculateWatchConditions (61000 * millisecond) (exampleWatch 700)
        exampleVideo).remainingBytes = 0 ∧
    (calculateWatchConditions (61000 * millisecond) (exampleWatch 700)
        exampleVideo).remainingTime = 0 ∧
    (calculateWatchConditions (61000 * millisecond) (exampleWatch 700)
        exampleVideo).remainingBytes = (remainingSpec 1000 100 700 61000).1 := by
  refine ⟨by decide, by decide, ?_⟩
  exact (calculateWatchConditions_matches_remainingSpec exampleVideo
    (exampleWatch 700) (61000 * millisecond) 61000 (by decide)).1

/-- C9: when the overwrite guard rejects, the call performs no write at
all: no record is persisted (the deferred Save is registered only after the
guard), no file is stored, and the only status value observed is the one at
entry. -/
theorem uploadVideo_reject_no_write (env : UploadEnv) (video : Video)
    (h : Status.UPLOADING < video.status) :
    UploadVideo env video =
      { response := Except.error UploadError.cannotOverwrite
        persisted := none
        fileStored := false
        statusTrace := [video.status] } := by
  unfold UploadVideo
  rw [if_pos h]

/-- C9 witness: uploading over a PROCESSING video with an all-success
environment persists nothing. -/
theorem uploadVideo_reject_no_write_witness :
    UploadVideo allOkEnv processingVideo =
      { response := Except.error UploadError.cannotOverwrite
        persisted := none
        fileStored := false
        statusTrace := [Status.PROCESSING] } :=
  uploadVideo_reject_no_write allOkEnv processingVideo (by decide)

/-- C10: if the probe and the size stat succeed but thumbnail generation
fails, the persisted record still carries the probe metadata (MimeType,
DurationSecs, SizeBytes) together with status PROCESSING; no already-set
field is discarded. -/
theorem uploadVideo_thumbnail_failure_keeps_metadata (env : UploadEnv)
    (video : Video) (hst : video.status ≤ Status.UPLOADING)
    (hmk : env.mkdirOk = true) (hcr : env.createOk = true)
    (hcp : env.copyOk = true) (hcl : env.closeOk = true)
    (p : ProbeInfo) (hp : env.probe = Except.ok p)
    (sz : ℤ) (hsz : env.statSize = some sz)
    (hth : env.thumbnailOk = false) :
    (UploadVideo env video).persisted =
      some { video with
              mimeType := p.mimeType
              durationSecs := p.durationSecs
              sizeBytes := sz
              status := Status.PROCESSING } := by
  unfold UploadVideo
  rw [if_neg (Status.not_lt_of_le hst)]
  simp [hmk, hcr, hcp, hcl, hp, hsz, hth]

/-- C10 witness: a thumbnail-stage failure on a fresh placeholder persists
the probed metadata at status PROCESSING. -/
theorem uploadVideo_thumbnail_failure_keeps_metadata_witness :
    (UploadVideo thumbFailEnv emptyVideo).persisted =
      some { emptyVideo with
              mimeType := "video/mp4"
              durationSecs := 100
              sizeBytes := 1000
              status := Status.PROCESSING } :=
  uploadVideo_thumbnail_failure_keeps_metadata thumbFailEnv emptyVideo
    (by decide) rfl rfl rfl rfl { mimeType := "video/mp4", durationSecs := 100 }
    rfl 1000 rfl rfl

/-- C5: watchFor returns the user's existing session unchanged when it
already targets the given video (and writes nothing new); when no session
exists, or the existing one targets a different video, the resulting
session carries the freshly generated ViewId (newId), StartedAt = now and
BytesStreamed = 0, and is persisted, discarding prior progress. -/
theorem watchFor_upsert (now : ℤ) (newId userId : ℕ) (video : Video)
    (db : Option Watch) :
    (∀ w, db = some w → w.videoId = video.id →
      watchFor now newId userId video db = (w, some w)) ∧
    (db = none →
      watchFor now newId userId video db =
        (⟨userId, video.id, newId, now, 0⟩,
          some ⟨userId, video.id, newId, now, 0⟩)) ∧
    (∀ w, db = some w → w.videoId ≠ video.id →
      watchFor now newId userId video db =
        (⟨w.userId, video.id, newId, now, 0⟩,
          some ⟨w.userId, video.id, newId, now, 0⟩)) := by
  refine ⟨?_, ?_, ?_⟩
  · rintro w rfl hw
    unfold watchFor
    simp [hw]
  · rintro rfl
    unfold watchFor
    simp
  · rintro w rfl hw
    unfold watchFor
    simp [hw]

/-- C5 witness: a session already targeting the requested video is
returned unchanged, and the store is untouched. -/
theorem watchFor_upsert_witness :
    watchFor 5 99 7 exampleVideo (some (exampleWatch 700)) =
      (exampleWatch 700, some (exampleWatch 700)) :=
  (watchFor_upsert 5 99 7 exampleVideo (some (exampleWatch 700))).1
    (exampleWatch 700) rfl rfl

/-- C4: tryAddView checks its conditions in order: an existing ledger entry
for the session's ViewId yields Duplicate with the ledger unchanged;
otherwise remainingTime > 0 yields TimeNotPassed carrying the remaining
milliseconds (regardless of the byte condition); otherwise remainingBytes >
0 yields NotStreamedEnough carrying the remaining bytes; otherwise the
entry is inserted and the result is Success. -/
theorem tryAddView_check_order (now : ℤ) (watch : Watch) (video : Video)
    (ledger : List (ℕ × ℕ)) :
    ((video.id, watch.viewId) ∈ ledger →
      tryAddView now watch video ledger =
        (AddViewResult.ADD_VIEW_DUPLICATE, ledger)) ∧
    ((video.id, watch.viewId) ∉ ledger →
      0 < (calculateWatchConditions now watch video).remainingTime →
      tryAddView now watch video ledger =
        (AddViewResult.ADD_VIEW_TIME_NOT_PASSED
            (durationMilliseconds
              (calculateWatchConditions now watch video).remainingTime),
          ledger)) ∧
    ((video.id, watch.viewId) ∉ ledger →
      (calculateWatchConditions now watch video).remainingTime ≤ 0 →
      0 < (calculateWatchConditions now watch video).remainingBytes →
      tryAddView now watch video ledger =
        (AddViewResult.ADD_VIEW_VIDEO_NOT_STREAMED_ENOUGH
            (calculateWatchConditions now watch video).remainingBytes,
          ledger)) ∧
    ((video.id, watch.viewId) ∉ ledger →
      (calculateWatchConditions now watch video).remainingTime ≤ 0 →
      (calculateWatchConditions now watch video).remainingBytes ≤ 0 →
      tryAddView now watch video ledger =
        (AddViewResult.ADD_VIEW_SUCCESS,
          (video.id, watch.viewId) :: ledger)) := by
  refine ⟨?_, ?_, ?_, ?_⟩
  · intro hmem
    unfold tryAddView
    simp [hmem]
  · intro hmem ht
    unfold tryAddView
    simp [hmem, ht]
  · intro hmem ht hb
    unfold tryAddView
    simp [hmem, not_lt.mpr ht, hb]
  · intro hmem ht hb
    unfold tryAddView
    simp [hmem, not_lt.mpr ht, not_lt.mpr hb]

/-- C4 witness: the spec's example - 500 of 600 required bytes streamed and
61000 ms elapsed of 60000 ms required - reports NotStreamedEnough(100). -/
theorem tryAddView_check_order_witness :
    tryAddView (61000 * millisecond) (exampleWatch 500) exampleVideo [] =
      (AddViewResult.ADD_VIEW_VIDEO_NOT_STREAMED_ENOUGH 100, []) := by
  have h := (tryAddView_check_order (61000 * millisecond) (exampleWatch 500)
    exampleVideo []).2.2.1 (by decide) (by decide) (by decide)
  exact h.trans (by decide)

theorem stillWatchingSeq_ledger_mem (watch : Watch) (video : Video)
    (ts : List ℤ) (ledger : List (ℕ × ℕ))
    (hmem : (video.id, watch.viewId) ∈ ledger) :
    stillWatchingSeq watch video ts ledger =
      (List.replicate ts.length AddViewResult.ADD_VIEW_DUPLICATE, ledger) := by
  induction ts with
  | nil => rfl
  | cons t ts ih =>
    unfold stillWatchingSeq tryAddView
    simp [hmem, ih, List.replicate_succ]

/-- C1: once a session has crossed the threshold (remainingTime = 0 and
remainingBytes = 0) and no view has been counted for its ViewId, a sequence
of still-watching polls yields exactly one Success - on the first poll -
and every later poll yields Duplicate; the ledger gains exactly the one
entry and never changes again. -/
theorem stillWatchingSeq_one_success (watch : Watch) (video : Video)
    (t : ℤ) (ts : List ℤ) (ledger : List (ℕ × ℕ))
    (hmem : (video.id, watch.viewId) ∉ ledger)
    (hTime : (calculateWatchConditions t watch video).remainingTime = 0)
    (hBytes : (calculateWatchConditions t watch video).remainingBytes = 0) :
    stillWatchingSeq watch video (t :: ts) ledger =
      (AddViewResult.ADD_VIEW_SUCCESS ::
          List.replicate ts.length AddViewResult.ADD_VIEW_DUPLICATE,
        (video.id, watch.viewId) :: ledger) := by
  have hstep : tryAddView t watch video ledger =
      (AddViewResult.ADD_VIEW_SUCCESS, (video.id, watch.viewId) :: ledger) := by
    unfold tryAddView
    simp [hmem, hTime, hBytes]
  have hrest := stillWatchingSeq_ledger_mem watch video ts
    ((video.id, watch.viewId) :: ledger) (List.mem_cons_self _ _)
  unfold stillWatchingSeq
  simp only [hstep, hrest]

/-- C1 witness: three polls after the threshold is crossed yield Success
then Duplicate twice, and the ledger holds the single entry. -/
theorem stillWatchingSeq_one_success_witness :
    stillWatchingSeq (exampleWatch 700) exampleVideo
        [61000 * millisecond, 62000 * millisecond, 63000 * millisecond] [] =
      ([AddViewResult.ADD_VIEW_SUCCESS, AddViewResult.ADD_VIEW_DUPLICATE,
          AddViewResult.ADD_VIEW_DUPLICATE],
        [(1, 42)]) := by
  have h := stillWatchingSeq_one_success (exampleWatch 700) exampleVideo
    (61000 * millisecond) [62000 * millisecond, 63000 * millisecond] []
    (by decide) (by decide) (by decide)
  exact h.trans (by decide)

theorem probeErrorResponse_ne_cannotOverwrite (e : ProbeError) :
    probeErrorResponse e ≠ UploadError.cannotOverwrite := by
  cases e <;> simp [probeErrorResponse]

theorem uploadVideo_trace_shape (env : UploadEnv) (video : Video)
    (hlt : ¬ Status.UPLOADING < video.status) :
    (UploadVideo env video).statusTrace = [video.status, Status.UPLOADING] ∨
    (UploadVideo env video).statusTrace =
      [video.status, Status.UPLOADING, Status.PROCESSING] ∨
    (UploadVideo env video).statusTrace =
      [video.status, Status.UPLOADING, Status.PROCESSING, Status.COMPLETE] := by
  obtain ⟨mk, cr, cp, cl, pr, st, th⟩ := env
  unfold UploadVideo
  rw [if_neg hlt]
  cases mk <;> cases cr <;> cases cp <;> cases cl <;> cases pr <;> cases st <;>
    cases th <;> simp

theorem uploadVideo_persisted_last (env : UploadEnv) (video : Video)
    (hlt : ¬ Status.UPLOADING < video.status) :
    ∃ v, (UploadVideo env video).persisted = some v ∧
      (UploadVideo env video).statusTrace.getLast? = some v.status := by
  obtain ⟨mk, cr, cp, cl, pr, st, th⟩ := env
  unfold UploadVideo
  rw [if_neg hlt]
  cases mk <;> cases cr <;> cases cp <;> cases cl <;> cases pr <;> cases st <;>
    cases th <;> simp

/-- C6: within one upload call the observed status values are
non-decreasing in the order EMPTY < UPLOADING < PROCESSING < COMPLETE and
confined to that set, and on every exit path past the guard the deferred
Save persists a record whose status is the last value of the trace. -/
theorem uploadVideo_status_monotone (env : UploadEnv) (video : Video) :
    List.Chain' (fun a b => a ≤ b) (UploadVideo env video).statusTrace ∧
    (∀ s ∈ (UploadVideo env video).statusTrace,
      s = Status.EMPTY ∨ s = Status.UPLOADING ∨ s = Status.PROCESSING ∨
        s = Status.COMPLETE) ∧
    (video.status ≤ Status.UPLOADING →
      ∃ v, (UploadVideo env video).persisted = some v ∧
        (UploadVideo env video).statusTrace.getLast? = some v.status) := by
  refine ⟨?_, ?_, ?_⟩
  · by_cases hlt : Status.UPLOADING < video.status
    · unfold UploadVideo
      rw [if_pos hlt]
      exact List.chain'_singleton _
    · have hle : video.status ≤ Status.UPLOADING := Status.le_of_not_lt hlt
      rcases uploadVideo_trace_shape env video hlt with h | h | h <;> rw [h] <;>
        simp [List.chain'_cons, hle] <;> decide
  · intro s _
    cases s <;> simp
  · intro hle
    exact uploadVideo_persisted_last env video (Status.not_lt_of_le hle)

/-- C6 witness: a fully successful upload of a fresh placeholder persists a
record whose status is the last status of the trace. -/
theorem uploadVideo_status_monotone_witness :
    ∃ v, (UploadVideo allOkEnv emptyVideo).persisted = some v ∧
      (UploadVideo allOkEnv emptyVideo).statusTrace.getLast? = some v.status :=
  (uploadVideo_status_monotone allOkEnv emptyVideo).2.2 (by decide)

/-- C7: the upload aborts at its first failure. A mid-copy failure, a close
failure or a probe failure deletes the stored partial file and persists the
record with status still UPLOADING (retriable), reporting the respective
error; a thumbnail-stage failure deletes nothing: the file stays stored and
the persisted record keeps status PROCESSING. -/
theorem uploadVideo_failure_cleanup (env : UploadEnv) (video : Video)
    (hst : video.status ≤ Status.UPLOADING)
    (hmk : env.mkdirOk = true) (hcr : env.createOk = true) :
    (env.copyOk = false →
      UploadVideo env video =
        { response := Except.error UploadError.genericFileIo
          persisted := some { video with status := Status.UPLOADING }
          fileStored := false
          statusTrace := [video.status, Status.UPLOADING] }) ∧
    (env.copyOk = true → env.closeOk = false →
      UploadVideo env video =
        { response := Except.error UploadError.genericFileIo
          persisted := some { video with status := Status.UPLOADING }
          fileStored := false
          statusTrace := [video.status, Status.UPLOADING] }) ∧
    (env.copyOk = true → env.closeOk = true →
      ∀ e, env.probe = Except.error e →
      UploadVideo env video =
        { response := Except.error (probeErrorResponse e)
          persisted := some { video with status := Status.UPLOADING }
          fileStored := false
          statusTrace := [video.status, Status.UPLOADING] }) ∧
    (env.copyOk = true → env.closeOk = true →
      ∀ p, env.probe = Except.ok p → ∀ sz, env.statSize = some sz →
      env.thumbnailOk = false →
      (UploadVideo env video).fileStored = true ∧
      (∃ v, (UploadVideo env video).persisted = some v ∧
        v.status = Status.PROCESSING) ∧
      (UploadVideo env video).response =
        Except.error UploadError.generateThumbnail) := by
  have hlt := Status.not_lt_of_le hst
  refine ⟨?_, ?_, ?_, ?_⟩
  · intro hcp
    unfold UploadVideo
    rw [if_neg hlt]
    simp [hmk, hcr, hcp]
  · intro hcp hcl
    unfold UploadVideo
    rw [if_neg hlt]
    simp [hmk, hcr, hcp, hcl]
  · intro hcp hcl e hp
    unfold UploadVideo
    rw [if_neg hlt]
    simp [hmk, hcr, hcp, hcl, hp]
  · intro hcp hcl p hp sz hsz hth
    unfold UploadVideo
    rw [if_neg hlt]
    simp [hmk, hcr, hcp, hcl, hp, hsz, hth]

/-- C7 witness: a mid-copy failure on a fresh placeholder deletes the
partial file, reports a file I/O error and leaves the persisted status at
UPLOADING. -/
theorem uploadVideo_failure_cleanup_witness :
    UploadVideo copyFailEnv emptyVideo =
      { response := Except.error UploadError.genericFileIo
        persisted := some { emptyVideo with status := Status.UPLOADING }
        fileStored := false
        statusTrace := [Status.EMPTY, Status.UPLOADING] } :=
  (uploadVideo_failure_cleanup copyFailEnv emptyVideo (by decide) rfl rfl).1 rfl

/-- C3 counterexample: the claim's parenthetical equates the guard
condition status > UPLOADING with status = COMPLETE, but a video at
PROCESSING is also rejected by the guard while not being COMPLETE. -/
theorem uploadVideo_overwrite_only_complete_false :
    (UploadVideo allOkEnv processingVideo).response =
        Except.error UploadError.cannotOverwrite ∧
    processingVideo.status ≠ Status.COMPLETE := by decide

/-- C3 (amended): the upload rejects with the overwrite error exactly when
the video's status is greater than UPLOADING - that is, when it is
PROCESSING or COMPLETE - and an upload at status EMPTY or UPLOADING is
never rejected by this guard: absent any I/O failure it succeeds. -/
theorem uploadVideo_overwrite_guard (env : UploadEnv) (video : Video) :
    ((UploadVideo env video).response =
        Except.error UploadError.cannotOverwrite ↔
      Status.UPLOADING < video.status) ∧
    (Status.UPLOADING < video.status ↔
      (video.status = Status.PROCESSING ∨ video.status = Status.COMPLETE)) ∧
    (video.status = Status.EMPTY ∨ video.status = Status.UPLOADING →
      env.noFailure → (UploadVideo env video).response = Except.ok ()) := by
  refine ⟨⟨?_, ?_⟩, ?_, ?_⟩
  · intro h
    by_contra hlt
    obtain ⟨mk, cr, cp, cl, pr, st, th⟩ := env
    unfold UploadVideo at h
    rw [if_neg hlt] at h
    revert h
    cases mk <;> cases cr <;> cases cp <;> cases cl <;> cases pr <;>
      cases st <;> cases th <;> simp [probeErrorResponse_ne_cannotOverwrite]
  · intro hlt
    unfold UploadVideo
    rw [if_pos hlt]
  · cases hv : video.status <;> simp [hv] <;> decide
  · rintro hse ⟨h1, h2, h3, h4, ⟨p, hp⟩, ⟨sz, hsz⟩, h7⟩
    have hlt : ¬ Status.UPLOADING < video.status := by
      rcases hse with h | h <;> rw [h] <;> decide
    unfold UploadVideo
    rw [if_neg hlt]
    simp [h1, h2, h3, h4, hp, hsz, h7]

/-- C3 witness: uploading to an EMPTY placeholder with an all-success
environment is accepted and succeeds. -/
theorem uploadVideo_overwrite_guard_witness :
    (UploadVideo allOkEnv emptyVideo).response = Except.ok () :=
  (uploadVideo_overwrite_guard allOkEnv emptyVideo).2.2 (Or.inl rfl)
    ⟨rfl, rfl, rfl, rfl, ⟨_, rfl⟩, ⟨_, rfl⟩, rfl⟩
